import Mathlib

/-!
# Verification of the charmonator example apps' evaluation pipeline

Shallow embedding of the session-based, AI-assisted evaluation pipeline of the
`charmonator-apps-examples` repository, together with proofs and refutations of
the specification's claims about it.

Sources embedded here:
* `determineOverallEligibility`, `evaluateCriterion` and the
  `POST /clinical-trial-matcher` route (clinical-trial-matcher-app/README.md);
* `parseJsonFromResponse`, `assessCategory`, `performOutliveAssessment`,
  `generateRecommendations`, `determinePriority` (chat-with-records-app/README.md);
* the session routes `POST /pre-populate`, `GET /session/:sessionId`,
  `POST /chat`, `POST /assess` and `cleanupExpiredSessions`
  (chat-with-records-app/routes/chat-with-records.mjs and the outlive variant).

Modelling conventions:
* JavaScript values coming out of `JSON.parse` are modelled by the inductive
  type `Json`; the JavaScript value `undefined` is modelled by `none` in
  `Option Json`.
* Property access `v.f` on a JavaScript value is modelled by `jsGetField`:
  it raises a `TypeError` (an `Except.error`) on `null`, returns the bound
  value on objects, and returns `undefined` (`Option.none`) on any other value.
* Numbers are modelled as exact rationals (`ℚ`); `Math.round` is modelled by
  `jsMathRound`, rounding half toward positive infinity as JavaScript does for
  the non-negative values arising here.  The value `NaN` produced by `0 / 0`
  is modelled by `Option.none`.
* Timestamps are integers (milliseconds); `new Date()` comparisons become
  integer comparisons.
* A thrown JavaScript exception is modelled by `Except.error`; a `try/catch`
  block by matching on the `Except`.
* The external chat model (`chatModel.replyTo`) is a parameter: an
  `Except String String` (transport failure, or the raw response text).
-/

/-- JSON values as returned by a successful `JSON.parse`. -/
inductive Json where
  | null : Json
  | bool (b : Bool) : Json
  | num (q : ℚ) : Json
  | str (s : String) : Json
  | arr (elems : List Json) : Json
  | obj (fields : List (String × Json)) : Json

/-- JavaScript property access `v[key]`: a `TypeError` on `null`, the bound
value (last binding wins, as in a JavaScript object) or `undefined` on objects,
and `undefined` on every other (auto-boxed) value. -/
def jsGetField : Json → String → Except String (Option Json)
  | Json.null, key =>
      Except.error ("TypeError: Cannot read properties of null (reading " ++ key ++ ")")
  | Json.obj fields, key =>
      Except.ok ((fields.reverse.find? (fun kv => kv.1 == key)).map Prod.snd)
  | _, _ => Except.ok none

/-- `v === s` for a string literal `s`: true only when the value is that string. -/
def statusEq (v : Option Json) (s : String) : Bool :=
  match v with
  | some (Json.str t) => t == s
  | _ => false

/-- Extract the string carried by a status value, if it is a string. -/
def statusString (v : Option Json) : Option String :=
  match v with
  | some (Json.str t) => some t
  | _ => none

/-- Result record built by `evaluateCriterion` for one criterion.
`status`, `reasoning` and `confidence` are copied from the parsed model
response, so they are arbitrary JavaScript values (`Option Json`). -/
structure CritResult where
  criterion : String
  type : String
  status : Option Json
  reasoning : Option Json
  confidence : Option Json

/-- `determineOverallEligibility` from clinical-trial-matcher-app/README.md:
filter by type, check failed inclusions / triggered exclusions, then
more-information-needed, then the all-matched / none-matched combination. -/
def determineOverallEligibility (results : List CritResult) : String :=
  let inclusionResults := results.filter (fun r => r.type == "inclusion")
  let exclusionResults := results.filter (fun r => r.type == "exclusion")
  let failedInclusion := inclusionResults.any (fun r => statusEq r.status "non-matched")
  let failedExclusion := exclusionResults.any (fun r => statusEq r.status "matched")
  let needsMoreInfo := results.any (fun r => statusEq r.status "more-information-needed")
  if failedInclusion || failedExclusion then "ineligible"
  else if needsMoreInfo then "needs-review"
  else
    let allInclusionMatched := inclusionResults.all (fun r => statusEq r.status "matched")
    let noExclusionMatched := exclusionResults.all (fun r => statusEq r.status "non-matched")
    if allInclusionMatched && noExclusionMatched then "eligible"
    else "needs-review"

/-- Reference definition written from the specification's words (§4.5): if any
inclusion item is non-matched or any exclusion item is matched, the verdict is
ineligible, taking precedence over everything else; otherwise, if any item has
the needs-more-info status, the verdict is needs-review; otherwise, if every
inclusion item is matched and every exclusion item is non-matched, the verdict
is eligible; any other combination falls back to needs-review.  The spec's
abstract third status `needs-more-info` is the code's token
`more-information-needed`. -/
def specOverallEligibility (results : List CritResult) : String :=
  if results.any (fun r => r.type == "inclusion" && statusEq r.status "non-matched")
      || results.any (fun r => r.type == "exclusion" && statusEq r.status "matched") then
    "ineligible"
  else if results.any (fun r => statusEq r.status "more-information-needed") then
    "needs-review"
  else if (results.filter (fun r => r.type == "inclusion")).all
            (fun r => statusEq r.status "matched")
          && (results.filter (fun r => r.type == "exclusion")).all
            (fun r => statusEq r.status "non-matched") then
    "eligible"
  else
    "needs-review"

/-! ## A model of `JSON.parse` (ECMA-404 grammar, numbers as exact rationals) -/

/-- Whitespace accepted by the JSON grammar itself (space, tab, LF, CR,
i.e. code points 32, 9, 10, 13). -/
def isJsonWs (c : Char) : Bool :=
  c.toNat == 32 || c.toNat == 9 || c.toNat == 10 || c.toNat == 13

/-- The WhiteSpace/LineTerminator set used by JavaScript's `String.trim` and
by `\s` in regular expressions. -/
def isJsWs (c : Char) : Bool :=
  let n := c.toNat
  n == 0x9 || n == 0xA || n == 0xB || n == 0xC || n == 0xD || n == 0x20 ||
  n == 0xA0 || n == 0x1680 || (0x2000 ≤ n && n ≤ 0x200A) ||
  n == 0x2028 || n == 0x2029 || n == 0x202F || n == 0x205F || n == 0x3000 || n == 0xFEFF

def skipWs (cs : List Char) : List Char := cs.dropWhile isJsonWs

/-- A decimal digit: code points 48 through 57. -/
def isDigitChar (c : Char) : Bool := 48 ≤ c.toNat && c.toNat ≤ 57

def digitCharVal (c : Char) : ℕ := c.toNat - 48

def digitsToNat (ds : List Char) : ℕ := ds.foldl (fun a c => 10 * a + digitCharVal c) 0

/-- Value of a hexadecimal digit (0-9, a-f, A-F by code point ranges). -/
def hexDigitVal (c : Char) : Option ℕ :=
  let n := c.toNat
  if 48 ≤ n && n ≤ 57 then some (n - 48)
  else if 97 ≤ n && n ≤ 102 then some (n - 87)
  else if 65 ≤ n && n ≤ 70 then some (n - 55)
  else none

/-- Scan the body of a JSON string literal (the opening quote already
consumed), decoding the escape sequences accepted by `JSON.parse`. -/
def scanStringAux : ℕ → List Char → List Char → Except String (String × List Char)
  | 0, _, _ => Except.error "String scanner fuel exhausted"
  | _ + 1, _, [] => Except.error "Unterminated string in JSON"
  | fuel + 1, acc, c :: rest =>
      if c == '"' then Except.ok (String.mk acc.reverse, rest)
      else if c == '\\' then
        match rest with
        | '"' :: r => scanStringAux fuel ('"' :: acc) r
        | '\\' :: r => scanStringAux fuel ('\\' :: acc) r
        | '/' :: r => scanStringAux fuel ('/' :: acc) r
        | 'b' :: r => scanStringAux fuel ('\x08' :: acc) r
        | 'f' :: r => scanStringAux fuel ('\x0c' :: acc) r
        | 'n' :: r => scanStringAux fuel ('\n' :: acc) r
        | 'r' :: r => scanStringAux fuel ('\r' :: acc) r
        | 't' :: r => scanStringAux fuel ('\t' :: acc) r
        | 'u' :: h1 :: h2 :: h3 :: h4 :: r =>
            match hexDigitVal h1, hexDigitVal h2, hexDigitVal h3, hexDigitVal h4 with
            | some a, some b, some c2, some d =>
                scanStringAux fuel (Char.ofNat (((a * 16 + b) * 16 + c2) * 16 + d) :: acc) r
            | _, _, _, _ => Except.error "Bad Unicode escape in JSON string"
        | _ => Except.error "Bad escape in JSON string"
      else if c.toNat < 0x20 then Except.error "Bad control character in JSON string"
      else scanStringAux fuel (c :: acc) rest

def scanString (cs : List Char) : Except String (String × List Char) :=
  scanStringAux (cs.length + 1) [] cs

/-- Fractional part of a JSON number (empty if there is no `.`). -/
def scanFrac : List Char → Except String (ℚ × List Char)
  | '.' :: r =>
      let fds := r.takeWhile isDigitChar
      if fds.isEmpty then Except.error "Expected digits after decimal point"
      else Except.ok ((digitsToNat fds : ℚ) / (10 : ℚ) ^ fds.length, r.dropWhile isDigitChar)
  | cs => Except.ok (0, cs)

/-- Exponent part of a JSON number (zero if there is no `e`/`E`). -/
def scanExp : List Char → Except String (ℤ × List Char)
  | [] => Except.ok (0, [])
  | c :: r =>
      if c == 'e' || c == 'E' then
        let sr : ℤ × List Char :=
          match r with
          | '+' :: r2 => (1, r2)
          | '-' :: r2 => (-1, r2)
          | _ => (1, r)
        let ds := sr.2.takeWhile isDigitChar
        if ds.isEmpty then Except.error "Expected digits in exponent"
        else Except.ok (sr.1 * (digitsToNat ds : ℤ), sr.2.dropWhile isDigitChar)
      else Except.ok (0, c :: r)

/-- Scan a JSON number starting at a `-` or a digit. -/
def scanNumber (cs : List Char) : Except String (ℚ × List Char) :=
  let sgn : ℚ × List Char := match cs with | '-' :: r => (-1, r) | _ => (1, cs)
  let ids := sgn.2.takeWhile isDigitChar
  if ids.isEmpty then Except.error "Expected digit in JSON number"
  else if 1 < ids.length && ids.headD '0' == '0' then
    Except.error "Leading zero in JSON number"
  else
    match scanFrac (sgn.2.dropWhile isDigitChar) with
    | Except.error e => Except.error e
    | Except.ok (frac, cs2) =>
        match scanExp cs2 with
        | Except.error e => Except.error e
        | Except.ok (ex, cs3) =>
            Except.ok (sgn.1 * ((digitsToNat ids : ℚ) + frac) * (10 : ℚ) ^ ex, cs3)

mutual

/-- Recursive-descent JSON value parser (fuelled; leading grammar whitespace
is skipped here). -/
def parseValue : ℕ → List Char → Except String (Json × List Char)
  | 0, _ => Except.error "Parser fuel exhausted"
  | _ + 1, [] => Except.error "Unexpected end of JSON input"
  | fuel + 1, c :: rest =>
      if isJsonWs c then parseValue fuel rest
      else if c == 'n' then
        match rest with
        | 'u' :: 'l' :: 'l' :: r => Except.ok (Json.null, r)
        | _ => Except.error "Unexpected token n in JSON"
      else if c == 't' then
        match rest with
        | 'r' :: 'u' :: 'e' :: r => Except.ok (Json.bool true, r)
        | _ => Except.error "Unexpected token t in JSON"
      else if c == 'f' then
        match rest with
        | 'a' :: 'l' :: 's' :: 'e' :: r => Except.ok (Json.bool false, r)
        | _ => Except.error "Unexpected token f in JSON"
      else if c == '"' then
        match scanString rest with
        | Except.error e => Except.error e
        | Except.ok (s, r) => Except.ok (Json.str s, r)
      else if c == '-' || isDigitChar c then
        match scanNumber (c :: rest) with
        | Except.error e => Except.error e
        | Except.ok (q, r) => Except.ok (Json.num q, r)
      else if c == '[' then
        match skipWs rest with
        | ']' :: r => Except.ok (Json.arr [], r)
        | cs2 => parseElems fuel cs2 []
      else if c == '{' then
        match skipWs rest with
        | '}' :: r => Except.ok (Json.obj [], r)
        | cs2 => parseMembers fuel cs2 []
      else Except.error "Unexpected token in JSON"

/-- Elements of a JSON array after the opening bracket (at least one). -/
def parseElems : ℕ → List Char → List Json → Except String (Json × List Char)
  | 0, _, _ => Except.error "Parser fuel exhausted"
  | fuel + 1, cs, acc =>
      match parseValue fuel cs with
      | Except.error e => Except.error e
      | Except.ok (v, r) =>
          match skipWs r with
          | ',' :: r2 => parseElems fuel r2 (v :: acc)
          | ']' :: r2 => Except.ok (Json.arr (v :: acc).reverse, r2)
          | _ => Except.error "Expected comma or closing bracket in JSON array"

/-- Members of a JSON object after the opening brace (at least one). -/
def parseMembers : ℕ → List Char → List (String × Json) →
    Except String (Json × List Char)
  | 0, _, _ => Except.error "Parser fuel exhausted"
  | fuel + 1, cs, acc =>
      match cs with
      | '"' :: r =>
          match scanString r with
          | Except.error e => Except.error e
          | Except.ok (k, r1) =>
              match skipWs r1 with
              | ':' :: r2 =>
                  match parseValue fuel r2 with
                  | Except.error e => Except.error e
                  | Except.ok (v, r3) =>
                      match skipWs r3 with
                      | ',' :: r4 => parseMembers fuel (skipWs r4) ((k, v) :: acc)
                      | '}' :: r4 => Except.ok (Json.obj ((k, v) :: acc).reverse, r4)
                      | _ => Except.error "Expected comma or closing brace in JSON object"
              | _ => Except.error "Expected colon in JSON object"
      | _ => Except.error "Expected string key in JSON object"

end

/-- `JSON.parse` on a character list: one value, surrounded only by grammar
whitespace. -/
def jsonParseChars (cs : List Char) : Except String Json :=
  match parseValue (2 * cs.length + 2) cs with
  | Except.error e => Except.error e
  | Except.ok (v, r) =>
      if (skipWs r).isEmpty then Except.ok v
      else Except.error "Unexpected non-whitespace character after JSON"

/-- `JSON.parse` on a string. -/
def jsonParse (s : String) : Except String Json := jsonParseChars s.toList

/-! ## `parseJsonFromResponse` (chat-with-records-app/README.md)

The source trims the response, strips a leading markdown fence
(`/^```json\s*/` when the text starts with "```json", else `/^```\s*/` when it
starts with "```"), strips a trailing fence (`/\s*```$/`), trims again, and
calls `JSON.parse`; a parse failure is rethrown as
`Invalid JSON response: <message>` (the original text is written to the
diagnostic log).  The anchored greedy regex replaces are modelled exactly:
the leading one drops the fence characters and the maximal following
whitespace run, the trailing one (which matches iff the text ends in three
backticks) drops the final three backticks and the maximal preceding
whitespace run. -/

def backtickFence : List Char := ['`', '`', '`']

def jsonFenceTag : List Char := ['`', '`', '`', 'j', 's', 'o', 'n']

/-- `startsWith` on character lists. -/
def listTakeIs (cs pre : List Char) : Bool := cs.take pre.length == pre

/-- Drop the maximal run of `\s` characters at the end of the text. -/
def dropTrailWs (cs : List Char) : List Char := (cs.reverse.dropWhile isJsWs).reverse

/-- JavaScript `String.trim`. -/
def jsTrimChars (cs : List Char) : List Char := dropTrailWs (cs.dropWhile isJsWs)

/-- `.replace(/\s*```$/, '')`. -/
def stripTrailingFence (cs : List Char) : List Char :=
  if cs.reverse.take 3 == backtickFence then ((cs.reverse.drop 3).dropWhile isJsWs).reverse
  else cs

/-- The cleaning performed by `parseJsonFromResponse` before `JSON.parse`. -/
def cleanResponseChars (cs : List Char) : List Char :=
  let s1 := jsTrimChars cs
  let s2 :=
    if listTakeIs s1 jsonFenceTag then
      stripTrailingFence ((s1.drop 7).dropWhile isJsWs)
    else if listTakeIs s1 backtickFence then
      stripTrailingFence ((s1.drop 3).dropWhile isJsWs)
    else s1
  jsTrimChars s2

/-- `parseJsonFromResponse` from chat-with-records-app/README.md.  The thrown
`Invalid JSON response: ...` error becomes the `Except.error` case. -/
def parseJsonFromResponse (s : String) : Except String Json :=
  match jsonParseChars (cleanResponseChars s.toList) with
  | Except.ok v => Except.ok v
  | Except.error e => Except.error ("Invalid JSON response: " ++ e)

/-! ## `evaluateCriterion` and the `POST /clinical-trial-matcher` pipeline -/

/-- `evaluateCriterion` from clinical-trial-matcher-app/README.md, as a
function of the model's reply (`chatModel.replyTo` is external; a transport
failure is the `Except.error` case).  The reply is `JSON.parse`d directly; on
parse failure the hard-coded fallback evaluation object is used; reading the
`status`/`reasoning`/`confidence` properties of a non-object primitive yields
`undefined`, and reading them off `null` throws, landing in the outer `catch`
which produces the transport-failure fallback. -/
def evaluateCriterion (reply : Except String String) (criterion ty : String) : CritResult :=
  match reply with
  | Except.error msg =>
      { criterion := criterion, type := ty,
        status := some (Json.str "more-information-needed"),
        reasoning := some (Json.str ("Error during evaluation: " ++ msg)),
        confidence := some (Json.num 0) }
  | Except.ok content =>
      match jsonParse content with
      | Except.error _ =>
          { criterion := criterion, type := ty,
            status := some (Json.str "more-information-needed"),
            reasoning := some (Json.str "Unable to parse model response properly"),
            confidence := some (Json.num (1 / 10)) }
      | Except.ok v =>
          match jsGetField v "status", jsGetField v "reasoning", jsGetField v "confidence" with
          | Except.ok st, Except.ok rs, Except.ok cf =>
              { criterion := criterion, type := ty,
                status := st, reasoning := rs, confidence := cf }
          | _, _, _ =>
              { criterion := criterion, type := ty,
                status := some (Json.str "more-information-needed"),
                reasoning := some (Json.str
                  "Error during evaluation: TypeError reading parsed response"),
                confidence := some (Json.num 0) }

/-- The per-criterion loop of `POST /clinical-trial-matcher`: every inclusion
criterion is evaluated, then every exclusion criterion, and
`determineOverallEligibility` is applied to the collected results.  The
external evaluator is an oracle from (criterion, type) to its reply. -/
def runTrialMatcher (oracle : String → String → Except String String)
    (inclusionCriteria exclusionCriteria : List String) : String × List CritResult :=
  let results :=
    inclusionCriteria.map (fun c => evaluateCriterion (oracle c "inclusion") c "inclusion")
      ++ exclusionCriteria.map (fun c => evaluateCriterion (oracle c "exclusion") c "exclusion")
  (determineOverallEligibility results, results)

/-- The input-validation step of `POST /clinical-trial-matcher`:
`!medicalRecord`, `!trialCriteria`, `!trialCriteria.inclusionCriteria` or
`!trialCriteria.exclusionCriteria` produce a 400.  An empty string is falsy;
an array — even the empty array — is truthy. -/
structure TrialCriteriaBody where
  inclusionCriteria : Option (List String)
  exclusionCriteria : Option (List String)

/-- `true` iff the route rejects the request body with a 400 validation
error. -/
def trialMatcherRejects (medicalRecord : String) (tc : Option TrialCriteriaBody) : Bool :=
  medicalRecord == "" ||
    (match tc with
     | none => true
     | some c => c.inclusionCriteria.isNone || c.exclusionCriteria.isNone)

/-! ## The Outlive checklist assessment pipeline (chat-with-records-app/README.md) -/

/-- JavaScript truthiness of a JSON value. -/
def jsTruthy : Json → Bool
  | Json.null => false
  | Json.bool b => b
  | Json.num q => !(q == 0)
  | Json.str s => !(s == "")
  | Json.arr _ => true
  | Json.obj _ => true

/-- One entry of a checklist category. -/
structure ChecklistItem where
  test : String
  rationale : String

/-- One entry of the collected `missingTests` list. -/
structure MissingTest where
  testName : String
  category : String
  rationale : String
  priority : String

/-- JavaScript `String.includes` (substring containment). -/
def jsIncludes (hay needle : String) : Bool :=
  (List.range (hay.toList.length + 1)).any
    (fun i => (hay.toList.drop i).take needle.toList.length == needle.toList)

def highPriorityTests : List String :=
  ["ApoB", "Lp(a)", "OGTT with Insulin", "CT Angiogram", "APOE Genotype", "VO₂ max"]

def mediumPriorityTests : List String :=
  ["ALT", "Uric Acid", "DEXA Scan", "PSA", "Colonoscopy"]

/-- `determinePriority` from chat-with-records-app/README.md: static substring
match against the high/medium lexicons, defaulting to low.  The `category`
argument is accepted and ignored, as in the source. -/
def determinePriority (testName : String) (_category : String) : String :=
  if highPriorityTests.any (fun t => jsIncludes testName t) then "high"
  else if mediumPriorityTests.any (fun t => jsIncludes testName t) then "medium"
  else "low"

/-- Per-category result record built by `assessCategory`.  `categoryStatus`,
`categoryNotes` and `items` are copied from the parsed model response, so they
are arbitrary JavaScript values. -/
structure CategoryResult where
  categoryName : String
  categoryStatus : Option Json
  categoryNotes : Option Json
  totalItems : ℕ
  itemsFound : ℕ
  itemsMissing : ℕ
  itemsPartial : ℕ
  items : Option Json
  missingTests : List MissingTest

/-- The `items` array constructed in the `catch` fallback of `assessCategory`:
every checklist item marked `missing`. -/
def fallbackItems (categoryItems : List ChecklistItem) : Json :=
  Json.arr (categoryItems.map (fun it => Json.obj
    [("testName", Json.str it.test), ("status", Json.str "missing"),
     ("evidence", Json.str "Assessment error"),
     ("details", Json.str "Unable to complete assessment"),
     ("lastDate", Json.null), ("values", Json.null)]))

/-- The whole `catch` fallback result of `assessCategory`. -/
def fallbackCategoryResult (categoryName : String)
    (categoryItems : List ChecklistItem) : CategoryResult :=
  { categoryName := categoryName,
    categoryStatus := some (Json.str "needs-attention"),
    categoryNotes := some (Json.str "Error occurred during assessment"),
    totalItems := categoryItems.length,
    itemsFound := 0,
    itemsMissing := categoryItems.length,
    itemsPartial := 0,
    items := some (fallbackItems categoryItems),
    missingTests := categoryItems.map
      (fun it => ⟨it.test, categoryName, it.rationale, "medium"⟩) }

/-- The `assessment.items.forEach` counting loop of `assessCategory`: `found`,
`missing` and `partial` statuses are counted (any other status falls through
the `switch`), and each `missing` item is pushed onto `missingTests`.  Reading
`item.status` off `null` throws; `determinePriority` throws when
`item.testName` is not a string (no `includes` method); both land in the outer
`catch`. -/
def countItemsAux (categoryName : String) (categoryItems : List ChecklistItem) :
    List Json → ℕ × ℕ × ℕ × List MissingTest →
      Except String (ℕ × ℕ × ℕ × List MissingTest)
  | [], acc => Except.ok acc
  | item :: rest, (f, ms, p, mts) =>
      match jsGetField item "status" with
      | Except.error e => Except.error e
      | Except.ok st =>
          if statusEq st "found" then
            countItemsAux categoryName categoryItems rest (f + 1, ms, p, mts)
          else if statusEq st "missing" then
            match jsGetField item "testName" with
            | Except.error e => Except.error e
            | Except.ok tn =>
                match tn with
                | some (Json.str tname) =>
                    let rat := (((categoryItems.find? (fun ci => ci.test == tname)).map
                      ChecklistItem.rationale).getD "")
                    countItemsAux categoryName categoryItems rest
                      (f, ms + 1, p,
                        mts ++ [⟨tname, categoryName, rat,
                          determinePriority tname categoryName⟩])
                | _ => Except.error "TypeError: testName.includes is not a function"
          else if statusEq st "partial" then
            countItemsAux categoryName categoryItems rest (f, ms, p + 1, mts)
          else
            countItemsAux categoryName categoryItems rest (f, ms, p, mts)

/-- `assessCategory` from chat-with-records-app/README.md, as a function of
the model reply.  A transport failure, a `parseJsonFromResponse` failure, a
`null` assessment (property access throws), a non-array `items` field
(`forEach` is not a function) or a throw inside the counting loop all land in
the `catch` fallback. -/
def assessCategory (reply : Except String String) (categoryName : String)
    (categoryItems : List ChecklistItem) : CategoryResult :=
  match reply with
  | Except.error _ => fallbackCategoryResult categoryName categoryItems
  | Except.ok content =>
      match parseJsonFromResponse content with
      | Except.error _ => fallbackCategoryResult categoryName categoryItems
      | Except.ok assessment =>
          match jsGetField assessment "categoryStatus",
                jsGetField assessment "categoryNotes",
                jsGetField assessment "items" with
          | Except.ok cs, Except.ok cn, Except.ok itemsField =>
              match itemsField with
              | some (Json.arr itemsList) =>
                  match countItemsAux categoryName categoryItems itemsList (0, 0, 0, []) with
                  | Except.error _ => fallbackCategoryResult categoryName categoryItems
                  | Except.ok (f, ms, p, mts) =>
                      { categoryName := categoryName, categoryStatus := cs,
                        categoryNotes := cn, totalItems := categoryItems.length,
                        itemsFound := f, itemsMissing := ms, itemsPartial := p,
                        items := some (Json.arr itemsList), missingTests := mts }
              | _ => fallbackCategoryResult categoryName categoryItems
          | _, _, _ => fallbackCategoryResult categoryName categoryItems

/-- `Math.round` for the non-negative finite values arising here: round half
toward positive infinity. -/
def jsMathRound (q : ℚ) : ℤ := ⌊q + 1 / 2⌋

/-- The `results.overall` record of `performOutliveAssessment`.
`completionPercentage` is `none` when `totalItems = 0`, modelling the `NaN`
JavaScript produces for `0 / 0`. -/
structure OutliveOverall where
  totalItems : ℕ
  itemsFound : ℕ
  itemsMissing : ℕ
  itemsPartial : ℕ
  completionPercentage : Option ℤ

/-- The full result object of `performOutliveAssessment`. -/
structure OutliveResults where
  overall : OutliveOverall
  categories : List (String × CategoryResult)
  recommendations : Option Json
  missingTests : List MissingTest

/-- The static fallback recommendation list of `generateRecommendations`
(titles kept verbatim; the long description sentences are inert data and
abbreviated to their leading words). -/
def staticFallbackRecommendations : Json :=
  Json.arr [Json.obj
    [("priority", Json.str "high"), ("category", Json.str "General"),
     ("title", Json.str "Consult with Healthcare Provider"),
     ("description", Json.str "Review these assessment results with your healthcare provider"),
     ("timeframe", Json.str "Within 1 month"),
     ("rationale", Json.str "Professional medical guidance is essential")]]

/-- `generateRecommendations` from chat-with-records-app/README.md: parse the
reply and return its `recommendations` field (which may be `undefined`); any
transport, parse or property-access failure returns the static fallback
list. -/
def generateRecommendations (recReply : Except String String) : Option Json :=
  match recReply with
  | Except.error _ => some staticFallbackRecommendations
  | Except.ok content =>
      match parseJsonFromResponse content with
      | Except.error _ => some staticFallbackRecommendations
      | Except.ok v =>
          match jsGetField v "recommendations" with
          | Except.error _ => some staticFallbackRecommendations
          | Except.ok r => r

/-- `performOutliveAssessment` from chat-with-records-app/README.md: assess
every category of the checklist, sum the per-category counts, compute
`completionPercentage = Math.round((itemsFound / totalItems) * 100)`, collect
the missing tests, and generate recommendations.  The source obtains
`outliveChecklist` from the fixed five-category `getOutliveChecklist()`; here it
is an explicit argument (category name × items).  The per-category model
replies are an oracle indexed by category name; `recReply` is the reply of
the recommendation call. -/
def performOutliveAssessment (replies : String → Except String String)
    (recReply : Except String String)
    (outliveChecklist : List (String × List ChecklistItem)) : OutliveResults :=
  let categories := outliveChecklist.map
    (fun nc => (nc.1, assessCategory (replies nc.1) nc.1 nc.2))
  let totalItems : ℕ := (categories.map (fun c => c.2.totalItems)).sum
  let itemsFound : ℕ := (categories.map (fun c => c.2.itemsFound)).sum
  let itemsMissing : ℕ := (categories.map (fun c => c.2.itemsMissing)).sum
  let itemsPartial : ℕ := (categories.map (fun c => c.2.itemsPartial)).sum
  let missingTests := (categories.map (fun c => c.2.missingTests)).flatten
  let completionPercentage : Option ℤ :=
    if totalItems = 0 then none
    else some (jsMathRound ((itemsFound : ℚ) / (totalItems : ℚ) * 100))
  { overall := { totalItems := totalItems, itemsFound := itemsFound,
                 itemsMissing := itemsMissing, itemsPartial := itemsPartial,
                 completionPercentage := completionPercentage },
    categories := categories,
    recommendations := generateRecommendations recReply,
    missingTests := missingTests }

/-! ## Session storage and routes (chat-with-records.mjs and the outlive
variant in chat-with-records-app/README.md)

The in-memory `Map` is modelled as an association list in insertion order:
`Map.get` finds the binding, `Map.set` overwrites in place or appends, and
`Map.delete` removes it.  Timestamps are integer milliseconds; `new Date()`
taken at the start of a request is the parameter `now`, and
`now > expiresAt` becomes `expiresAt < now`. -/

def mapGet {α : Type} (k : String) (m : List (String × α)) : Option α :=
  (m.find? (fun kv => kv.1 == k)).map Prod.snd

def mapSet {α : Type} (k : String) (v : α) (m : List (String × α)) :
    List (String × α) :=
  if m.any (fun kv => kv.1 == k) then
    m.map (fun kv => if kv.1 == k then (k, v) else kv)
  else m ++ [(k, v)]

def mapDelete {α : Type} (k : String) (m : List (String × α)) : List (String × α) :=
  m.filter (fun kv => !(kv.1 == k))

/-- A chat-with-records session record (`sessionData` in `POST /pre-populate`
of chat-with-records.mjs).  The transcript is the ordered list of role-tagged
messages. -/
structure ChatSessionData where
  sessionId : String
  medicalRecord : String
  chatContext : Json
  systemPrompt : String
  transcript : List (String × String)
  createdAt : ℤ
  expiresAt : ℤ

/-- `generateMedicalSystemPrompt`: a pure template over the record and chat
context.  `patientName`/`recordCount` default when the context field is
absent or falsy; the long static instruction text surrounding the
interpolations is inert for every claim and abbreviated here to its distinctive
opening and the record marker. -/
def generateMedicalSystemPrompt (medicalRecord : String) (ctx : Json) : String :=
  let patientName :=
    match jsGetField ctx "patientName" with
    | Except.ok (some (Json.str s)) => if s == "" then "the patient" else s
    | _ => "the patient"
  let recordCount :=
    match jsGetField ctx "recordCount" with
    | Except.ok (some (Json.num q)) => if q == 0 then "multiple" else toString q.num
    | _ => "multiple"
  "You are a helpful medical AI assistant with access to the complete health records of "
    ++ patientName ++ ". You have " ++ recordCount
    ++ " medical records to reference.\n\nPATIENT MEDICAL RECORDS:\n" ++ medicalRecord
    ++ "\n\nInstructions for Medical Conversations: (static instruction text)"

/-- `cleanupExpiredSessions` over a chat session store: delete every entry
with `now > expiresAt`. -/
def cleanupChatSessions (now : ℤ) (m : List (String × ChatSessionData)) :
    List (String × ChatSessionData) :=
  m.filter (fun kv => decide (now ≤ kv.2.expiresAt))

/-- The TTL hard-coded in `POST /pre-populate`: 24 hours in milliseconds. -/
def chatSessionTtlMs : ℤ := 24 * 60 * 60 * 1000

inductive PrePopOutcome where
  | badRequest (msg : String)
  | created (sessionId : String) (createdAt expiresAt : ℤ)

/-- `POST /pre-populate` of chat-with-records.mjs: validate the record and its
size, sweep expired sessions, pick the supplied id if truthy (else the
generated one), build the session with `expiresAt = createdAt + 24h`, and
`Map.set` it — overwriting any existing binding with the same id.
`generatedId` stands for the `chat-session-<time>-<random>` string;
`chatContext = none` models an absent field. -/
def prePopulateChat (now : ℤ) (generatedId : String) (maxSize : ℕ)
    (medicalRecord : String) (suppliedId : Option String) (chatContext : Option Json)
    (m : List (String × ChatSessionData)) :
    PrePopOutcome × List (String × ChatSessionData) :=
  if medicalRecord == "" then
    (PrePopOutcome.badRequest "Medical record is required and must be a string", m)
  else if maxSize < medicalRecord.length then
    (PrePopOutcome.badRequest "Medical record too large", m)
  else
    let m1 := cleanupChatSessions now m
    let finalSessionId :=
      match suppliedId with
      | some s => if s == "" then generatedId else s
      | none => generatedId
    let expiresAt := now + chatSessionTtlMs
    let storedCtx :=
      match chatContext with
      | some v => if jsTruthy v then v else Json.obj []
      | none => Json.obj []
    let sd : ChatSessionData :=
      { sessionId := finalSessionId, medicalRecord := medicalRecord,
        chatContext := storedCtx,
        systemPrompt := generateMedicalSystemPrompt medicalRecord
          (match chatContext with | some v => v | none => Json.obj []),
        transcript := [], createdAt := now, expiresAt := expiresAt }
    (PrePopOutcome.created finalSessionId now expiresAt, mapSet finalSessionId sd m1)

inductive GetSessionOutcome (α : Type) where
  | notFound
  | expired
  | ok (data : α) (timeRemaining : ℤ)

/-- `GET /session/:sessionId` of chat-with-records.mjs: sweep expired
sessions FIRST, then look the id up (404 when absent), then re-check expiry
inline (410 + delete), else return the data with the remaining time. -/
def getChatSession (now : ℤ) (sessionId : String)
    (m : List (String × ChatSessionData)) :
    GetSessionOutcome ChatSessionData × List (String × ChatSessionData) :=
  let m1 := cleanupChatSessions now m
  match mapGet sessionId m1 with
  | none => (GetSessionOutcome.notFound, m1)
  | some sd =>
      if sd.expiresAt < now then (GetSessionOutcome.expired, mapDelete sessionId m1)
      else (GetSessionOutcome.ok sd (sd.expiresAt - now), m1)

inductive ChatOutcome where
  | badRequest (msg : String)
  | notFound
  | expired
  | serverError (msg : String)
  | ok (response : String) (messageCount : ℕ)

/-- `POST /chat` of chat-with-records.mjs, as a function of the model reply.
No sweep here: lookup, inline expiry check (410 + delete), model/HIPAA
validation, then append the user message to the transcript — the property
assignment mutates the object held in the map, so the appended user message
persists even when the model call then fails — call the model, append the
assistant reply, and store.  `defaultModel` stands for
`appConfig?.models?.default || 'hipaa:o3-high'`. -/
def postChat (now : ℤ) (hipaaRequired : Bool) (defaultModel : String)
    (reply : Except String String) (sessionId message : String)
    (modelChoice : Option String) (m : List (String × ChatSessionData)) :
    ChatOutcome × List (String × ChatSessionData) :=
  if sessionId == "" || message == "" then
    (ChatOutcome.badRequest "Session ID and message are required", m)
  else
    match mapGet sessionId m with
    | none => (ChatOutcome.notFound, m)
    | some sd =>
        if sd.expiresAt < now then (ChatOutcome.expired, mapDelete sessionId m)
        else
          let selectedModel :=
            match modelChoice with
            | some s => if s == "" then defaultModel else s
            | none => defaultModel
          if hipaaRequired && !(selectedModel.startsWith "hipaa:") then
            (ChatOutcome.badRequest "HIPAA-compliant model required for medical conversations", m)
          else
            let sd1 := { sd with transcript := sd.transcript ++ [("user", message)] }
            match reply with
            | Except.error e => (ChatOutcome.serverError e, mapSet sessionId sd1 m)
            | Except.ok response =>
                if response == "" then
                  (ChatOutcome.serverError "Invalid response from chat model",
                    mapSet sessionId sd1 m)
                else
                  let sd2 := { sd1 with
                    transcript := sd1.transcript ++ [("assistant", response)] }
                  (ChatOutcome.ok response sd2.transcript.length, mapSet sessionId sd2 m)

/-- An outlive-checklist session record (`sessionData` in `POST
/pre-populate` of the outlive route). -/
structure OutliveSessionData where
  sessionId : String
  medicalRecord : String
  patientContext : Json
  createdAt : ℤ
  expiresAt : ℤ
  assessmentResults : Option OutliveResults

inductive AssessOutcome where
  | badRequest (msg : String)
  | notFound
  | expired
  | ok (results : OutliveResults)

/-- `POST /assess` of the outlive route in chat-with-records-app/README.md:
lookup, inline expiry check (410 + delete), model/HIPAA validation, run
`performOutliveAssessment` on the stored record, store the results into the
session, and return them.  The category replies, the recommendation reply and
the checklist parametrize the external evaluation as in
`performOutliveAssessment`. -/
def postAssess (now : ℤ) (hipaaRequired : Bool) (defaultModel : String)
    (replies : String → Except String String) (recReply : Except String String)
    (outliveChecklist : List (String × List ChecklistItem))
    (sessionId : String) (modelChoice : Option String)
    (m : List (String × OutliveSessionData)) :
    AssessOutcome × List (String × OutliveSessionData) :=
  if sessionId == "" then (AssessOutcome.badRequest "Session ID is required", m)
  else
    match mapGet sessionId m with
    | none => (AssessOutcome.notFound, m)
    | some sd =>
        if sd.expiresAt < now then (AssessOutcome.expired, mapDelete sessionId m)
        else
          let selectedModel :=
            match modelChoice with
            | some s => if s == "" then defaultModel else s
            | none => defaultModel
          if hipaaRequired && !(selectedModel.startsWith "hipaa:") then
            (AssessOutcome.badRequest "HIPAA-compliant model required for medical assessments", m)
          else
            let results := performOutliveAssessment replies recReply outliveChecklist
            let sd1 := { sd with assessmentResults := some results }
            (AssessOutcome.ok results, mapSet sessionId sd1 m)


/-! ## Data used by the closed witness and counterexample instances, and
small auxiliary definitions -/

/-- Markdown fence pieces as character lists: the text
`wrapJsonFence t = "```json\n" ++ t ++ "\n```"` has character list
`jsonFenceHeader ++ t.toList ++ fenceFooter`, and similarly for the tagless
fence. -/
def jsonFenceHeader : List Char := ['`', '`', '`', 'j', 's', 'o', 'n', '\n']

def bareFenceHeader : List Char := ['`', '`', '`', '\n']

def fenceFooter : List Char := ['\n', '`', '`', '`']

/-- Whether an `Except` is the success case. -/
def exceptIsOk {ε α : Type} : Except ε α → Bool
  | Except.ok _ => true
  | Except.error _ => false

/-- A pre-existing session used to exhibit the duplicate-id overwrite. -/
def c8ExistingSession : ChatSessionData :=
  ⟨"dup", "r1", Json.obj [], "old prompt", [], 0, 100⟩

/-- A session whose expiration (t = 5) has passed by lookup time (t = 10). -/
def c4ExpiredSession : ChatSessionData :=
  ⟨"sess-1", "record text", Json.obj [], "prompt", [], 0, 5⟩

/-- A live chat session used in the frame-property witness. -/
def c9ChatSession : ChatSessionData :=
  ⟨"s", "rec", Json.obj [], "prompt", [("user", "hi")], 0, 100⟩

/-- The same session after one successful `POST /chat` round. -/
def c9ChatSessionAfter : ChatSessionData :=
  ⟨"s", "rec", Json.obj [], "prompt",
   [("user", "hi"), ("user", "msg"), ("assistant", "resp")], 0, 100⟩

/-- A live outlive session used in the frame-property witness. -/
def c9OutliveSession : OutliveSessionData :=
  ⟨"o", "rec", Json.obj [], 0, 100, none⟩

/-- The same session after one `POST /assess` (all evaluator calls down). -/
def c9OutliveSessionAfter : OutliveSessionData :=
  ⟨"o", "rec", Json.obj [], 0, 100,
   some (performOutliveAssessment (fun _ => Except.error "down")
     (Except.error "down") [("General", [⟨"T", "R"⟩])])⟩

/-- A six-item category, mirroring the Metabolic Health category of
`getOutliveChecklist`. -/
def c6Checklist : List (String × List ChecklistItem) :=
  [("Metabolic Health",
    [⟨"T1", "R1"⟩, ⟨"T2", "R2"⟩, ⟨"T3", "R3"⟩, ⟨"T4", "R4"⟩, ⟨"T5", "R5"⟩, ⟨"T6", "R6"⟩])]

/-- An evaluator reply reporting 2 found, 3 missing and 1 partial item. -/
def c6Reply : String :=
  "\x7b\"categoryName\": \"Metabolic Health\", \"items\": [" ++
  "\x7b\"testName\": \"T1\", \"status\": \"found\"\x7d, " ++
  "\x7b\"testName\": \"T2\", \"status\": \"found\"\x7d, " ++
  "\x7b\"testName\": \"T3\", \"status\": \"missing\"\x7d, " ++
  "\x7b\"testName\": \"T4\", \"status\": \"missing\"\x7d, " ++
  "\x7b\"testName\": \"T5\", \"status\": \"missing\"\x7d, " ++
  "\x7b\"testName\": \"T6\", \"status\": \"partial\"\x7d], " ++
  "\"categoryStatus\": \"good\", \"categoryNotes\": \"ok\"\x7d"


/-! ## Helper lemmas -/

theorem statusEq_true_iff (v : Option Json) (s : String) :
    statusEq v s = true ↔ v = some (Json.str s) := by
  cases v with
  | none => simp [statusEq]
  | some j => cases j <;> simp [statusEq]

theorem any_congr_perm {α : Type} (p : α → Bool) {l₁ l₂ : List α} (h : l₁.Perm l₂) :
    l₁.any p = l₂.any p := by
  cases hb : l₂.any p with
  | true =>
      obtain ⟨x, hx, hpx⟩ := List.any_eq_true.mp hb
      exact List.any_eq_true.mpr ⟨x, h.mem_iff.mpr hx, hpx⟩
  | false =>
      rw [List.any_eq_false] at hb ⊢
      intro x hx
      exact hb x (h.mem_iff.mp hx)

theorem all_congr_perm {α : Type} (p : α → Bool) {l₁ l₂ : List α} (h : l₁.Perm l₂) :
    l₁.all p = l₂.all p := by
  cases h2 : l₂.all p with
  | true =>
      exact List.all_eq_true.mpr fun x hx => List.all_eq_true.mp h2 x (h.mem_iff.mp hx)
  | false =>
      cases h1 : l₁.all p with
      | true =>
          exact absurd
            (List.all_eq_true.mpr fun x hx => List.all_eq_true.mp h1 x (h.mem_iff.mpr hx))
            (by simp [h2])
      | false => rfl

/-! ## Claims about `determineOverallEligibility` -/

/-- C1.  For every list of item results, `determineOverallEligibility` equals
the specification's reference definition (ineligible when any inclusion item
is non-matched or any exclusion item is matched, with precedence; otherwise
needs-review when any item needs more information; otherwise eligible when
every inclusion item is matched and every exclusion item is non-matched;
otherwise needs-review); and whenever some exclusion item is matched the
verdict is ineligible regardless of every other result. -/
theorem determineOverallEligibility_eq_spec (results : List CritResult) :
    determineOverallEligibility results = specOverallEligibility results ∧
      ((∃ r ∈ results, r.type = "exclusion" ∧ r.status = some (Json.str "matched")) →
        determineOverallEligibility results = "ineligible") := by
  constructor
  · simp only [determineOverallEligibility, specOverallEligibility, List.any_filter]
  · intro h
    obtain ⟨r, hr, hty, hst⟩ := h
    have hx : results.any (fun r => r.type == "exclusion" && statusEq r.status "matched")
        = true :=
      List.any_eq_true.mpr ⟨r, hr, by simp [hty, hst, statusEq]⟩
    simp only [determineOverallEligibility, List.any_filter, hx, Bool.or_true, if_true]

/-- Closed instance of `determineOverallEligibility_eq_spec`: a matched
exclusion forces the ineligible verdict even with all inclusions matched. -/
theorem determineOverallEligibility_eq_spec_witness :
    determineOverallEligibility
        [⟨"age 18-65", "inclusion", some (Json.str "matched"), none, none⟩,
         ⟨"pregnancy", "exclusion", some (Json.str "matched"), none, none⟩]
      = specOverallEligibility
        [⟨"age 18-65", "inclusion", some (Json.str "matched"), none, none⟩,
         ⟨"pregnancy", "exclusion", some (Json.str "matched"), none, none⟩] ∧
    determineOverallEligibility
        [⟨"age 18-65", "inclusion", some (Json.str "matched"), none, none⟩,
         ⟨"pregnancy", "exclusion", some (Json.str "matched"), none, none⟩]
      = "ineligible" :=
  ⟨(determineOverallEligibility_eq_spec _).1,
   (determineOverallEligibility_eq_spec
      [⟨"age 18-65", "inclusion", some (Json.str "matched"), none, none⟩,
       ⟨"pregnancy", "exclusion", some (Json.str "matched"), none, none⟩]).2
     ⟨(⟨"pregnancy", "exclusion", some (Json.str "matched"), none, none⟩ : CritResult),
      by simp, rfl, rfl⟩⟩

/-- C7.  `determineOverallEligibility` is order-independent: permuting the
input list never changes the verdict (it is deterministic by virtue of being a
pure function). -/
theorem determineOverallEligibility_perm (l₁ l₂ : List CritResult) (h : l₁.Perm l₂) :
    determineOverallEligibility l₁ = determineOverallEligibility l₂ := by
  simp only [determineOverallEligibility]
  rw [any_congr_perm (fun r => statusEq r.status "non-matched")
        (h.filter (fun r => r.type == "inclusion")),
      any_congr_perm (fun r => statusEq r.status "matched")
        (h.filter (fun r => r.type == "exclusion")),
      any_congr_perm (fun r => statusEq r.status "more-information-needed") h,
      all_congr_perm (fun r => statusEq r.status "matched")
        (h.filter (fun r => r.type == "inclusion")),
      all_congr_perm (fun r => statusEq r.status "non-matched")
        (h.filter (fun r => r.type == "exclusion"))]

/-- Closed instance of `determineOverallEligibility_perm` at a transposed
two-element list. -/
theorem determineOverallEligibility_perm_witness :
    determineOverallEligibility
        [⟨"a", "inclusion", some (Json.str "matched"), none, none⟩,
         ⟨"b", "exclusion", some (Json.str "non-matched"), none, none⟩]
      = determineOverallEligibility
        [⟨"b", "exclusion", some (Json.str "non-matched"), none, none⟩,
         ⟨"a", "inclusion", some (Json.str "matched"), none, none⟩] :=
  determineOverallEligibility_perm _ _
    (List.Perm.swap
      (⟨"b", "exclusion", some (Json.str "non-matched"), none, none⟩ : CritResult)
      (⟨"a", "inclusion", some (Json.str "matched"), none, none⟩ : CritResult) [])

/-- C10.  A request whose inclusion and exclusion criteria lists are both
empty passes the route's input validation (arrays are truthy in JavaScript,
even when empty), and on the empty result list `determineOverallEligibility`
returns `eligible`: both some-checks are vacuously false and both
every-checks vacuously true. -/
theorem emptyCriteria_eligible :
    trialMatcherRejects "Patient age 45, on metformin"
        (some ⟨some [], some []⟩) = false ∧
    determineOverallEligibility [] = "eligible" ∧
    ∀ oracle : String → String → Except String String,
      runTrialMatcher oracle [] [] = ("eligible", []) :=
  ⟨rfl, rfl, fun _ => rfl⟩

/-! ## Claims about `evaluateCriterion` failure handling -/

/-- C3.  On a transport failure `evaluateCriterion` returns the
needs-more-info status with confidence exactly 0 and a rationale naming the
failure; on a parse failure it returns the needs-more-info status with the
low nonzero confidence 0.1; and the per-criterion loop of the route always
completes: one result per criterion, aggregated by
`determineOverallEligibility`. -/
theorem evaluateCriterion_failure_containment :
    (∀ (msg criterion ty : String),
        evaluateCriterion (Except.error msg) criterion ty =
          { criterion := criterion, type := ty,
            status := some (Json.str "more-information-needed"),
            reasoning := some (Json.str ("Error during evaluation: " ++ msg)),
            confidence := some (Json.num 0) }) ∧
    (∀ (content criterion ty e : String), jsonParse content = Except.error e →
        evaluateCriterion (Except.ok content) criterion ty =
          { criterion := criterion, type := ty,
            status := some (Json.str "more-information-needed"),
            reasoning := some (Json.str "Unable to parse model response properly"),
            confidence := some (Json.num (1 / 10)) } ∧
          (0 : ℚ) < 1 / 10 ∧ (1 : ℚ) / 10 < 1) ∧
    (∀ (oracle : String → String → Except String String) (incl excl : List String),
        (runTrialMatcher oracle incl excl).2.length = incl.length + excl.length ∧
        (runTrialMatcher oracle incl excl).1 =
          determineOverallEligibility (runTrialMatcher oracle incl excl).2) := by
  refine ⟨fun msg c t => rfl, fun content c t e h => ⟨?_, by norm_num, by norm_num⟩,
    fun oracle incl excl => ⟨by simp [runTrialMatcher], rfl⟩⟩
  simp [evaluateCriterion, h]

/-- Closed instance of `evaluateCriterion_failure_containment`: a transport
failure and an unparseable reply, each absorbed into the deterministic
fallback result. -/
theorem evaluateCriterion_failure_containment_witness :
    evaluateCriterion (Except.error "ECONNREFUSED") "Age 18-65" "inclusion" =
      { criterion := "Age 18-65", type := "inclusion",
        status := some (Json.str "more-information-needed"),
        reasoning := some (Json.str "Error during evaluation: ECONNREFUSED"),
        confidence := some (Json.num 0) } ∧
    evaluateCriterion (Except.ok "The patient seems fine.") "Age 18-65" "inclusion" =
      { criterion := "Age 18-65", type := "inclusion",
        status := some (Json.str "more-information-needed"),
        reasoning := some (Json.str "Unable to parse model response properly"),
        confidence := some (Json.num (1 / 10)) } :=
  ⟨evaluateCriterion_failure_containment.1 "ECONNREFUSED" "Age 18-65" "inclusion",
   (evaluateCriterion_failure_containment.2.1 "The patient seems fine." "Age 18-65"
      "inclusion" "Unexpected token in JSON" rfl).1⟩

/-! ## Claim C2: status values are NOT always confined to the enumeration -/

/-- C2 (amended).  On every failure path (transport failure, parse failure,
`null` or otherwise malformed response shape) the ItemEvaluator returns the
conservative default status — `more-information-needed` for a criterion, the
all-`missing` fallback for a checklist category; but when the evaluator
returns parseable JSON, the status field (and the checklist `items` array) is
copied through without validation, so an out-of-enumeration status value is
returned as-is. -/
theorem itemStatus_passthrough :
    (∀ (reply : Except String String) (criterion ty : String),
        (evaluateCriterion reply criterion ty).status
            = some (Json.str "more-information-needed") ∨
          ∃ content v, reply = Except.ok content ∧ jsonParse content = Except.ok v ∧
            jsGetField v "status"
              = Except.ok ((evaluateCriterion reply criterion ty).status)) ∧
    (∀ (reply : Except String String) (categoryName : String)
        (categoryItems : List ChecklistItem),
        assessCategory reply categoryName categoryItems
            = fallbackCategoryResult categoryName categoryItems ∨
          ∃ content v arr, reply = Except.ok content ∧
            parseJsonFromResponse content = Except.ok v ∧
            jsGetField v "items" = Except.ok (some (Json.arr arr)) ∧
            (assessCategory reply categoryName categoryItems).items
              = some (Json.arr arr)) := by
  constructor
  · intro reply criterion ty
    cases reply with
    | error msg => left; rfl
    | ok content =>
        cases h : jsonParse content with
        | error e => left; simp [evaluateCriterion, h]
        | ok v =>
            cases v with
            | null => left; simp [evaluateCriterion, h, jsGetField]
            | bool b =>
                right; exact ⟨content, Json.bool b, rfl, h, by simp [evaluateCriterion, h, jsGetField]⟩
            | num q =>
                right; exact ⟨content, Json.num q, rfl, h, by simp [evaluateCriterion, h, jsGetField]⟩
            | str s =>
                right; exact ⟨content, Json.str s, rfl, h, by simp [evaluateCriterion, h, jsGetField]⟩
            | arr xs =>
                right; exact ⟨content, Json.arr xs, rfl, h, by simp [evaluateCriterion, h, jsGetField]⟩
            | obj fields =>
                right; exact ⟨content, Json.obj fields, rfl, h, by simp [evaluateCriterion, h, jsGetField]⟩
  · intro reply categoryName categoryItems
    cases reply with
    | error msg => left; rfl
    | ok content =>
        cases h : parseJsonFromResponse content with
        | error e => left; simp [assessCategory, h]
        | ok v =>
            cases v with
            | null => left; simp [assessCategory, h, jsGetField]
            | bool b => left; simp [assessCategory, h, jsGetField]
            | num q => left; simp [assessCategory, h, jsGetField]
            | str s => left; simp [assessCategory, h, jsGetField]
            | arr xs => left; simp [assessCategory, h, jsGetField]
            | obj fields =>
                cases hit : (fields.reverse.find? (fun kv => kv.1 == "items")).map Prod.snd with
                | none => left; simp [assessCategory, h, jsGetField, hit]
                | some itemsVal =>
                    cases itemsVal with
                    | arr itemsList =>
                        cases hc : countItemsAux categoryName categoryItems itemsList
                            (0, 0, 0, []) with
                        | error e => left; simp [assessCategory, h, jsGetField, hit, hc]
                        | ok quad =>
                            right
                            refine ⟨content, Json.obj fields, itemsList, rfl, h, ?_, ?_⟩
                            · simp [jsGetField, hit]
                            · simp [assessCategory, h, jsGetField, hit, hc]
                    | null => left; simp [assessCategory, h, jsGetField, hit]
                    | bool b => left; simp [assessCategory, h, jsGetField, hit]
                    | num q => left; simp [assessCategory, h, jsGetField, hit]
                    | str s => left; simp [assessCategory, h, jsGetField, hit]
                    | obj fs => left; simp [assessCategory, h, jsGetField, hit]

/-- C2 counterexample.  A syntactically valid evaluator reply whose `status`
is the out-of-enumeration string "maybe" is passed straight through by
`evaluateCriterion`: the returned status is "maybe", which is none of the
enumerated status values of either tri-state. -/
theorem itemStatus_counterexample :
    statusString (evaluateCriterion
        (Except.ok "\x7b\"status\": \"maybe\", \"reasoning\": \"unclear\", \"confidence\": \"high\"\x7d")
        "Age 18-65" "inclusion").status = some "maybe" ∧
    "maybe" ∉ (["matched", "non-matched", "more-information-needed", "needs-more-info",
      "found", "missing", "partial"] : List String) :=
  ⟨rfl, by decide⟩

/-! ## Map lemmas -/

theorem mapGet_map_overwrite {α : Type} (k : String) (v : α) (m : List (String × α))
    (h : m.any (fun kv => kv.1 == k) = true) :
    mapGet k (m.map (fun kv => if kv.1 == k then (k, v) else kv)) = some v := by
  induction m with
  | nil => simp at h
  | cons hd tl ih =>
      by_cases hh : hd.1 == k
      · simp [mapGet, List.find?, hh]
      · have h2 : tl.any (fun kv => kv.1 == k) = true := by
          simp [List.any_cons, hh] at h
          simpa using h
        have := ih h2
        simpa [mapGet, List.find?, hh] using this

theorem mapGet_append_single {α : Type} (k : String) (v : α) (m : List (String × α))
    (h : m.any (fun kv => kv.1 == k) = false) :
    mapGet k (m ++ [(k, v)]) = some v := by
  induction m with
  | nil => simp [mapGet, List.find?]
  | cons hd tl ih =>
      rw [List.any_cons] at h
      have hh : (hd.1 == k) = false := by
        cases hb : hd.1 == k
        · rfl
        · rw [hb] at h; simp at h
      have h2 : tl.any (fun kv => kv.1 == k) = false := by
        cases hb : tl.any (fun kv => kv.1 == k)
        · rfl
        · rw [hb] at h; simp at h
      have := ih h2
      simpa [mapGet, List.find?, hh] using this

theorem mapGet_mapSet_self {α : Type} (k : String) (v : α) (m : List (String × α)) :
    mapGet k (mapSet k v m) = some v := by
  unfold mapSet
  cases h : m.any (fun kv => kv.1 == k) with
  | true => rw [if_pos rfl]; exact mapGet_map_overwrite k v m h
  | false => rw [if_neg (by simp [h])]; exact mapGet_append_single k v m h

theorem mapGet_mapDelete_self {α : Type} (k : String) (m : List (String × α)) :
    mapGet k (mapDelete k m) = none := by
  induction m with
  | nil => rfl
  | cons hd tl ih =>
      by_cases hh : hd.1 == k
      · simp only [mapDelete, List.filter_cons, hh, Bool.not_true] at ih ⊢
        simp only [if_neg (by simp : ¬ false = true)]
        exact ih
      · have hb : (hd.1 == k) = false := by simp [hh]
        simp only [mapDelete, List.filter_cons, hb, Bool.not_false, if_pos rfl] at ih ⊢
        simp only [mapGet, List.find?, hb] at ih ⊢
        exact ih

/-! ## Claim C8: session creation never fails on a duplicate id — it
overwrites -/


/-- C8 counterexample.  Creating a session with a supplied id that is already
present in the store does NOT fail with a duplicate-id error: the route
reports success with the same id, and the stored session now carries the new
record — the old session has been silently overwritten. -/
theorem prePopulate_duplicate_counterexample :
    (prePopulateChat 0 "generated-id" 50000 "r2" (some "dup") none
        [("dup", c8ExistingSession)]).1 = PrePopOutcome.created "dup" 0 86400000 ∧
    (mapGet "dup" (prePopulateChat 0 "generated-id" 50000 "r2" (some "dup") none
        [("dup", c8ExistingSession)]).2).map ChatSessionData.medicalRecord = some "r2" ∧
    (mapGet "dup" [("dup", c8ExistingSession)]).map ChatSessionData.medicalRecord
      = some "r1" :=
  ⟨rfl, rfl, rfl⟩

/-- C8 (amended).  For every valid input (non-empty record within the size
limit) session creation succeeds: it returns the chosen id, stores the
session with `expiresAt = createdAt + ttl`, an empty transcript and the
submitted record — and it does so even when the id already maps to an
existing session, which is silently overwritten (no duplicate-id error
exists). -/
theorem prePopulate_succeeds (now : ℤ) (generatedId : String) (maxSize : ℕ)
    (medicalRecord : String) (suppliedId : Option String) (chatContext : Option Json)
    (m : List (String × ChatSessionData))
    (hrec : medicalRecord ≠ "") (hsize : medicalRecord.length ≤ maxSize) :
    ∃ sid sd,
      (prePopulateChat now generatedId maxSize medicalRecord suppliedId chatContext m).1
        = PrePopOutcome.created sid now (now + chatSessionTtlMs) ∧
      mapGet sid
        (prePopulateChat now generatedId maxSize medicalRecord suppliedId chatContext m).2
        = some sd ∧
      sd.medicalRecord = medicalRecord ∧ sd.createdAt = now ∧
      sd.expiresAt = now + chatSessionTtlMs ∧ sd.transcript = [] := by
  have h1 : (medicalRecord == "") = false := beq_eq_false_iff_ne.mpr hrec
  simp only [prePopulateChat, h1, Bool.false_eq_true, if_false,
    if_neg (not_lt.mpr hsize)]
  exact ⟨_, _, rfl, mapGet_mapSet_self _ _ _, rfl, rfl, rfl, rfl⟩

/-- Closed instance of `prePopulate_succeeds`, at the same duplicate-id input
as the counterexample. -/
theorem prePopulate_succeeds_witness :
    ∃ sid sd,
      (prePopulateChat 0 "generated-id" 50000 "r2" (some "dup") none
          [("dup", c8ExistingSession)]).1
        = PrePopOutcome.created sid 0 (0 + chatSessionTtlMs) ∧
      mapGet sid
        (prePopulateChat 0 "generated-id" 50000 "r2" (some "dup") none
          [("dup", c8ExistingSession)]).2
        = some sd ∧
      sd.medicalRecord = "r2" ∧ sd.createdAt = 0 ∧
      sd.expiresAt = 0 + chatSessionTtlMs ∧ sd.transcript = [] :=
  prePopulate_succeeds 0 "generated-id" 50000 "r2" (some "dup") none
    [("dup", c8ExistingSession)] (by decide) (by decide)

/-! ## Claim C4: lookup of an already-expired session -/


/-- C4.  `GET /session/:sessionId` runs `cleanupExpiredSessions` BEFORE the
lookup, so a session whose expiration has already passed is purged by the
sweep and the very first lookup reports not-found (404) — the expired (410)
branch is dead for it; a second lookup also reports not-found. -/
theorem getSession_expired_reports_notFound :
    (getChatSession 10 "sess-1" [("sess-1", c4ExpiredSession)]).1
      = GetSessionOutcome.notFound ∧
    (getChatSession 10 "sess-1" [("sess-1", c4ExpiredSession)]).2 = [] ∧
    (getChatSession 10 "sess-1"
        (getChatSession 10 "sess-1" [("sess-1", c4ExpiredSession)]).2).1
      = GetSessionOutcome.notFound :=
  ⟨rfl, rfl, rfl⟩

/-! ## Claim C9: mutating operations leave the session payload unchanged -/

/-- C9.  After `POST /chat` the target session's payload — id, record,
context, system prompt, creation and expiration timestamps — is unchanged;
only the transcript grows, by appending.  After `POST /assess` the payload is
likewise unchanged; only `assessmentResults` may change. -/
theorem session_payload_frame :
    (∀ (now : ℤ) (hip : Bool) (dm : String) (reply : Except String String)
        (sid msg : String) (mc : Option String) (m : List (String × ChatSessionData))
        (sd sd' : ChatSessionData),
        mapGet sid m = some sd →
        mapGet sid (postChat now hip dm reply sid msg mc m).2 = some sd' →
        sd'.sessionId = sd.sessionId ∧ sd'.medicalRecord = sd.medicalRecord ∧
        sd'.chatContext = sd.chatContext ∧ sd'.systemPrompt = sd.systemPrompt ∧
        sd'.createdAt = sd.createdAt ∧ sd'.expiresAt = sd.expiresAt ∧
        ∃ tail, sd'.transcript = sd.transcript ++ tail) ∧
    (∀ (now : ℤ) (hip : Bool) (dm : String)
        (replies : String → Except String String) (recReply : Except String String)
        (cl : List (String × List ChecklistItem)) (sid : String) (mc : Option String)
        (m : List (String × OutliveSessionData)) (sd sd' : OutliveSessionData),
        mapGet sid m = some sd →
        mapGet sid (postAssess now hip dm replies recReply cl sid mc m).2 = some sd' →
        sd'.sessionId = sd.sessionId ∧ sd'.medicalRecord = sd.medicalRecord ∧
        sd'.patientContext = sd.patientContext ∧ sd'.createdAt = sd.createdAt ∧
        sd'.expiresAt = sd.expiresAt) := by
  constructor
  · intro now hip dm reply sid msg mc m sd sd' h1 h2
    simp only [postChat] at h2
    split at h2
    case isTrue =>
      rw [h1] at h2
      cases h2
      exact ⟨rfl, rfl, rfl, rfl, rfl, rfl, [], (List.append_nil _).symm⟩
    case isFalse =>
      split at h2
      next heq => rw [h1] at heq; cases heq
      next x heq =>
        rw [h1] at heq
        cases heq
        split at h2
        case isTrue =>
          rw [mapGet_mapDelete_self] at h2
          cases h2
        case isFalse =>
          split at h2
          case isTrue =>
            rw [h1] at h2
            cases h2
            exact ⟨rfl, rfl, rfl, rfl, rfl, rfl, [], (List.append_nil _).symm⟩
          case isFalse =>
            split at h2
            case h_1 e =>
              rw [mapGet_mapSet_self] at h2
              cases h2
              exact ⟨rfl, rfl, rfl, rfl, rfl, rfl, [("user", msg)], rfl⟩
            case h_2 response =>
              split at h2
              case isTrue =>
                rw [mapGet_mapSet_self] at h2
                cases h2
                exact ⟨rfl, rfl, rfl, rfl, rfl, rfl, [("user", msg)], rfl⟩
              case isFalse =>
                rw [mapGet_mapSet_self] at h2
                cases h2
                exact ⟨rfl, rfl, rfl, rfl, rfl, rfl,
                  [("user", msg), ("assistant", response)], by simp⟩
  · intro now hip dm replies recReply cl sid mc m sd sd' h1 h2
    simp only [postAssess] at h2
    split at h2
    case isTrue =>
      rw [h1] at h2
      cases h2
      exact ⟨rfl, rfl, rfl, rfl, rfl⟩
    case isFalse =>
      split at h2
      next heq => rw [h1] at heq; cases heq
      next x heq =>
        rw [h1] at heq
        cases heq
        split at h2
        case isTrue =>
          rw [mapGet_mapDelete_self] at h2
          cases h2
        case isFalse =>
          split at h2
          case isTrue =>
            rw [h1] at h2
            cases h2
            exact ⟨rfl, rfl, rfl, rfl, rfl⟩
          case isFalse =>
            rw [mapGet_mapSet_self] at h2
            cases h2
            exact ⟨rfl, rfl, rfl, rfl, rfl⟩





/-- Closed instance of `session_payload_frame` at a concrete chat round and a
concrete assessment. -/
theorem session_payload_frame_witness :
    (c9ChatSessionAfter.sessionId = c9ChatSession.sessionId ∧
      c9ChatSessionAfter.medicalRecord = c9ChatSession.medicalRecord ∧
      c9ChatSessionAfter.chatContext = c9ChatSession.chatContext ∧
      c9ChatSessionAfter.systemPrompt = c9ChatSession.systemPrompt ∧
      c9ChatSessionAfter.createdAt = c9ChatSession.createdAt ∧
      c9ChatSessionAfter.expiresAt = c9ChatSession.expiresAt ∧
      ∃ tail, c9ChatSessionAfter.transcript = c9ChatSession.transcript ++ tail) ∧
    (c9OutliveSessionAfter.sessionId = c9OutliveSession.sessionId ∧
      c9OutliveSessionAfter.medicalRecord = c9OutliveSession.medicalRecord ∧
      c9OutliveSessionAfter.patientContext = c9OutliveSession.patientContext ∧
      c9OutliveSessionAfter.createdAt = c9OutliveSession.createdAt ∧
      c9OutliveSessionAfter.expiresAt = c9OutliveSession.expiresAt) :=
  ⟨session_payload_frame.1 10 false "hipaa:o3-high" (Except.ok "resp") "s" "msg" none
      [("s", c9ChatSession)] c9ChatSession c9ChatSessionAfter rfl rfl,
   session_payload_frame.2 10 false "hipaa:o3-high" (fun _ => Except.error "down")
      (Except.error "down") [("General", [⟨"T", "R"⟩])] "o" none
      [("o", c9OutliveSession)] c9OutliveSession c9OutliveSessionAfter rfl rfl⟩

/-! ## Claim C6: the checklist completion percentage -/

/-- C6.  The overall completion percentage of the checklist aggregation equals
`round(100 * itemsFound / totalItems)` with integer rounding, whenever the
totals are meaningful (`0 < totalItems`; at `totalItems = 0` JavaScript
produces `NaN`, modelled as `none`); in particular `itemsFound = 0` yields 0
and `itemsFound = totalItems` yields 100.  The `itemsFound ≤ totalItems`
hypothesis mirrors the claim's quantification (the formula itself does not
need it). -/
theorem completionPercentage_formula (replies : String → Except String String)
    (recReply : Except String String) (cl : List (String × List ChecklistItem))
    (_hle : (performOutliveAssessment replies recReply cl).overall.itemsFound
      ≤ (performOutliveAssessment replies recReply cl).overall.totalItems)
    (hpos : 0 < (performOutliveAssessment replies recReply cl).overall.totalItems) :
    (performOutliveAssessment replies recReply cl).overall.completionPercentage
      = some (jsMathRound
          ((100 * ((performOutliveAssessment replies recReply cl).overall.itemsFound : ℚ))
            / ((performOutliveAssessment replies recReply cl).overall.totalItems : ℚ))) ∧
    ((performOutliveAssessment replies recReply cl).overall.itemsFound = 0 →
      (performOutliveAssessment replies recReply cl).overall.completionPercentage
        = some 0) ∧
    ((performOutliveAssessment replies recReply cl).overall.itemsFound
        = (performOutliveAssessment replies recReply cl).overall.totalItems →
      (performOutliveAssessment replies recReply cl).overall.completionPercentage
        = some 100) := by
  simp only [performOutliveAssessment] at hpos ⊢
  set f : ℕ := (List.map (fun c => c.2.itemsFound)
    (cl.map (fun nc => (nc.1, assessCategory (replies nc.1) nc.1 nc.2)))).sum with hf
  set t : ℕ := (List.map (fun c => c.2.totalItems)
    (cl.map (fun nc => (nc.1, assessCategory (replies nc.1) nc.1 nc.2)))).sum with ht
  have htne : t ≠ 0 := Nat.pos_iff_ne_zero.mp hpos
  have htq : (t : ℚ) ≠ 0 := Nat.cast_ne_zero.mpr htne
  rw [if_neg htne]
  refine ⟨?_, ?_, ?_⟩
  · congr 1
    congr 1
    field_simp
    ring
  · intro h0
    rw [h0]
    have hz : ((0 : ℕ) : ℚ) / (t : ℚ) * 100 = 0 := by simp
    rw [hz]
    congr 1
    rw [jsMathRound, Int.floor_eq_iff]
    norm_num
  · intro heq
    rw [heq]
    have ho : ((t : ℕ) : ℚ) / (t : ℚ) * 100 = 100 := by
      rw [div_self htq]; ring
    rw [ho]
    congr 1
    rw [jsMathRound, Int.floor_eq_iff]
    norm_num



set_option maxRecDepth 100000 in
/-- Closed instance of `completionPercentage_formula`: 2 of 6 items found
gives `round(100 * 2 / 6) = 33`, with 3 tests in the missing list. -/
theorem completionPercentage_formula_witness :
    (performOutliveAssessment (fun _ => Except.ok c6Reply) (Except.error "na")
        c6Checklist).overall.itemsFound = 2 ∧
    (performOutliveAssessment (fun _ => Except.ok c6Reply) (Except.error "na")
        c6Checklist).overall.totalItems = 6 ∧
    (performOutliveAssessment (fun _ => Except.ok c6Reply) (Except.error "na")
        c6Checklist).overall.completionPercentage = some 33 ∧
    (performOutliveAssessment (fun _ => Except.ok c6Reply) (Except.error "na")
        c6Checklist).missingTests.length = 3 := by
  have h := completionPercentage_formula (fun _ => Except.ok c6Reply) (Except.error "na")
    c6Checklist (by decide) (by decide)
  refine ⟨rfl, rfl, ?_, rfl⟩
  have hfc : (performOutliveAssessment (fun _ => Except.ok c6Reply) (Except.error "na")
      c6Checklist).overall.itemsFound = 2 := rfl
  have htc : (performOutliveAssessment (fun _ => Except.ok c6Reply) (Except.error "na")
      c6Checklist).overall.totalItems = 6 := rfl
  rw [h.1, hfc, htc]
  congr 1
  rw [jsMathRound, Int.floor_eq_iff]
  norm_num

/-! ## Claim C5: fence stripping in `parseJsonFromResponse` -/

theorem dropWhile_cons_false {p : Char → Bool} {c : Char} {rest : List Char}
    (h : p c = false) : (c :: rest).dropWhile p = c :: rest := by
  simp [List.dropWhile_cons, h]

theorem dropTrailWs_of_rev {t : List Char} {d : Char} {ds : List Char}
    (hrev : t.reverse = d :: ds) (h : isJsWs d = false) : dropTrailWs t = t := by
  unfold dropTrailWs
  rw [hrev, dropWhile_cons_false h, ← hrev, List.reverse_reverse]

theorem length_dropWhile_le (p : Char → Bool) (l : List Char) :
    (l.dropWhile p).length ≤ l.length :=
  (List.dropWhile_suffix p).length_le

theorem length_dropTrailWs_le (l : List Char) : (dropTrailWs l).length ≤ l.length := by
  unfold dropTrailWs
  calc (l.reverse.dropWhile isJsWs).reverse.length
      = (l.reverse.dropWhile isJsWs).length := List.length_reverse _
    _ ≤ l.reverse.length := length_dropWhile_le _ _
    _ = l.length := List.length_reverse _

/-- A nonempty `trim` fixed point starts with a non-whitespace character. -/
theorem trim_fix_head {c : Char} {rest : List Char}
    (hfix : jsTrimChars (c :: rest) = c :: rest) : isJsWs c = false := by
  cases hws : isJsWs c
  · rfl
  · exfalso
    have hlen : (jsTrimChars (c :: rest)).length ≤ rest.length := by
      unfold jsTrimChars
      calc (dropTrailWs ((c :: rest).dropWhile isJsWs)).length
          ≤ ((c :: rest).dropWhile isJsWs).length := length_dropTrailWs_le _
        _ = (rest.dropWhile isJsWs).length := by rw [List.dropWhile_cons, hws]; simp
        _ ≤ rest.length := length_dropWhile_le _ _
    rw [hfix] at hlen
    simp only [List.length_cons] at hlen
    omega

/-- A nonempty `trim` fixed point ends with a non-whitespace character. -/
theorem trim_fix_last {c d : Char} {rest ds : List Char}
    (hfix : jsTrimChars (c :: rest) = c :: rest)
    (hrev : (c :: rest).reverse = d :: ds) : isJsWs d = false := by
  cases hws : isJsWs d
  · rfl
  · exfalso
    have hhd := trim_fix_head hfix
    have hlen : (jsTrimChars (c :: rest)).length ≤ ds.length := by
      unfold jsTrimChars
      rw [dropWhile_cons_false hhd]
      unfold dropTrailWs
      rw [hrev, List.dropWhile_cons, hws]
      calc ((if true = true then ds.dropWhile isJsWs else d :: ds)).reverse.length
          = (ds.dropWhile isJsWs).length := by simp
        _ ≤ ds.length := length_dropWhile_le _ _
    rw [hfix] at hlen
    have hlen2 : (c :: rest).length = ds.length + 1 := by
      have := congrArg List.length hrev
      simpa using this
    omega

/-- Stripping the trailing fence `/\s*```$/` from `t ++ "\n```"` recovers the
trimmed `t`. -/
theorem stripTrail_core {c : Char} {rest : List Char}
    (hfix : jsTrimChars (c :: rest) = c :: rest) :
    stripTrailingFence ((c :: rest) ++ fenceFooter) = c :: rest := by
  have hrev : ((c :: rest) ++ fenceFooter).reverse
      = '`' :: '`' :: '`' :: '\n' :: (c :: rest).reverse := by
    simp [fenceFooter]
  unfold stripTrailingFence
  rw [hrev]
  have hcond : (List.take 3 ('`' :: '`' :: '`' :: '\n' :: (c :: rest).reverse)
      == backtickFence) = true := rfl
  rw [if_pos hcond]
  show (List.dropWhile isJsWs ('\n' :: (c :: rest).reverse)).reverse = c :: rest
  rw [List.dropWhile_cons]
  rw [show isJsWs '\n' = true from rfl]
  rw [if_pos rfl]
  obtain ⟨d, ds, hds⟩ : ∃ d ds, (c :: rest).reverse = d :: ds := by
    have hne : (c :: rest).reverse ≠ [] := by simp
    exact List.exists_cons_of_ne_nil hne
  rw [hds, dropWhile_cons_false (trim_fix_last hfix hds), ← hds, List.reverse_reverse]

/-- Cleaning a trimmed text wrapped in a ```json fence recovers the text. -/
theorem cleanResponse_json_fence {c : Char} {rest : List Char}
    (hws : isJsWs c = false)
    (hfix : jsTrimChars (c :: rest) = c :: rest) :
    cleanResponseChars (jsonFenceHeader ++ (c :: rest) ++ fenceFooter) = c :: rest := by
  have htrim : jsTrimChars (jsonFenceHeader ++ (c :: rest) ++ fenceFooter)
      = jsonFenceHeader ++ (c :: rest) ++ fenceFooter := by
    unfold jsTrimChars
    rw [show jsonFenceHeader ++ (c :: rest) ++ fenceFooter
        = '`' :: (['`', '`', 'j', 's', 'o', 'n', '\n'] ++ (c :: rest) ++ fenceFooter)
      from by simp [jsonFenceHeader, fenceFooter]]
    rw [dropWhile_cons_false (show isJsWs '`' = false from rfl)]
    rw [show ('`' :: (['`', '`', 'j', 's', 'o', 'n', '\n'] ++ (c :: rest) ++ fenceFooter))
        = ('`' :: ['`', '`', 'j', 's', 'o', 'n', '\n'] ++ (c :: rest) ++ ['\n', '`', '`'])
          ++ ['`']
      from by simp [fenceFooter]]
    have hrev2 : ((('`' :: ['`', '`', 'j', 's', 'o', 'n', '\n'] ++ (c :: rest)
        ++ ['\n', '`', '`']) ++ ['`']).reverse)
        = '`' :: (('`' :: ['`', '`', 'j', 's', 'o', 'n', '\n'] ++ (c :: rest)
            ++ ['\n', '`', '`'])).reverse := by
      simp
    rw [dropTrailWs_of_rev hrev2 (show isJsWs '`' = false from rfl)]
  simp only [cleanResponseChars]
  rw [htrim]
  have htag : listTakeIs (jsonFenceHeader ++ (c :: rest) ++ fenceFooter) jsonFenceTag
      = true := rfl
  rw [if_pos htag]
  have hdrop : (jsonFenceHeader ++ (c :: rest) ++ fenceFooter).drop 7
      = '\n' :: ((c :: rest) ++ fenceFooter) := rfl
  rw [hdrop, List.dropWhile_cons, show isJsWs '\n' = true from rfl, if_pos rfl]
  rw [show ((c :: rest) ++ fenceFooter).dropWhile isJsWs = (c :: rest) ++ fenceFooter
    from by rw [List.cons_append]; exact dropWhile_cons_false hws]
  rw [stripTrail_core hfix]
  exact hfix

/-- Cleaning a trimmed text wrapped in a plain (tagless) fence recovers the
text. -/
theorem cleanResponse_bare_fence {c : Char} {rest : List Char}
    (hws : isJsWs c = false)
    (hfix : jsTrimChars (c :: rest) = c :: rest) :
    cleanResponseChars (bareFenceHeader ++ (c :: rest) ++ fenceFooter) = c :: rest := by
  have htrim : jsTrimChars (bareFenceHeader ++ (c :: rest) ++ fenceFooter)
      = bareFenceHeader ++ (c :: rest) ++ fenceFooter := by
    unfold jsTrimChars
    rw [show bareFenceHeader ++ (c :: rest) ++ fenceFooter
        = '`' :: (['`', '`', '\n'] ++ (c :: rest) ++ fenceFooter)
      from by simp [bareFenceHeader, fenceFooter]]
    rw [dropWhile_cons_false (show isJsWs '`' = false from rfl)]
    rw [show ('`' :: (['`', '`', '\n'] ++ (c :: rest) ++ fenceFooter))
        = ('`' :: ['`', '`', '\n'] ++ (c :: rest) ++ ['\n', '`', '`']) ++ ['`']
      from by simp [fenceFooter]]
    have hrev2 : ((('`' :: ['`', '`', '\n'] ++ (c :: rest) ++ ['\n', '`', '`'])
        ++ ['`']).reverse)
        = '`' :: (('`' :: ['`', '`', '\n'] ++ (c :: rest) ++ ['\n', '`', '`'])).reverse := by
      simp
    rw [dropTrailWs_of_rev hrev2 (show isJsWs '`' = false from rfl)]
  simp only [cleanResponseChars]
  rw [htrim]
  have htag : listTakeIs (bareFenceHeader ++ (c :: rest) ++ fenceFooter) jsonFenceTag
      = false := rfl
  have hbare : listTakeIs (bareFenceHeader ++ (c :: rest) ++ fenceFooter) backtickFence
      = true := rfl
  rw [htag, if_neg (by simp), if_pos hbare]
  have hdrop : (bareFenceHeader ++ (c :: rest) ++ fenceFooter).drop 3
      = '\n' :: ((c :: rest) ++ fenceFooter) := rfl
  rw [hdrop, List.dropWhile_cons, show isJsWs '\n' = true from rfl, if_pos rfl]
  rw [show ((c :: rest) ++ fenceFooter).dropWhile isJsWs = (c :: rest) ++ fenceFooter
    from by rw [List.cons_append]; exact dropWhile_cons_false hws]
  rw [stripTrail_core hfix]
  exact hfix

theorem cons_beq_cons_head_false {c d : Char} {xs ys : List Char}
    (h : (c == d) = false) : ((c :: xs) == (d :: ys)) = false := by
  simp only [BEq.beq, List.beq]
  have h2 : decide (c = d) = false := h
  rw [h2]
  simp

/-- Cleaning a trimmed, unfenced text is the identity. -/
theorem cleanResponse_plain {c : Char} {rest : List Char}
    (hbt : c ≠ '`')
    (hfix : jsTrimChars (c :: rest) = c :: rest) :
    cleanResponseChars (c :: rest) = c :: rest := by
  have hc : (c == '`') = false := beq_eq_false_iff_ne.mpr hbt
  have htag : listTakeIs (c :: rest) jsonFenceTag = false := by
    unfold listTakeIs jsonFenceTag
    rw [show (['`', '`', '`', 'j', 's', 'o', 'n'] : List Char).length = 6 + 1 from rfl,
      List.take_succ_cons]
    exact cons_beq_cons_head_false hc
  have hbare : listTakeIs (c :: rest) backtickFence = false := by
    unfold listTakeIs backtickFence
    rw [show (['`', '`', '`'] : List Char).length = 2 + 1 from rfl, List.take_succ_cons]
    exact cons_beq_cons_head_false hc
  simp only [cleanResponseChars]
  rw [hfix, htag, if_neg (by simp), hbare, if_neg (by simp)]
  exact hfix

theorem jsonParseChars_nil_error :
    jsonParseChars [] = Except.error "Unexpected end of JSON input" := rfl

theorem jsonParseChars_backtick_error (rest : List Char) :
    jsonParseChars ('`' :: rest) = Except.error "Unexpected token in JSON" := rfl

/-- C5 (amended).  For every trimmed well-formed JSON text, the parser
returns the same structured value whether the text is plain, wrapped in a
```json fence, or wrapped in a tagless fence (a fence whose language tag is
anything else is not stripped correctly — see the counterexample); and
whenever the cleaned text fails to parse, the parser yields a `ParseError`
value whose message is prefixed `Invalid JSON response:` (the original text
goes to the diagnostic log), never an unhandled exception. -/
theorem parseJsonFromResponse_fenced :
    (∀ (t : String) (v : Json),
        jsTrimChars t.toList = t.toList →
        jsonParse t = Except.ok v →
        parseJsonFromResponse t = Except.ok v ∧
        parseJsonFromResponse ("```json\n" ++ t ++ "\n```") = Except.ok v ∧
        parseJsonFromResponse ("```\n" ++ t ++ "\n```") = Except.ok v) ∧
    (∀ (s e : String),
        jsonParseChars (cleanResponseChars s.toList) = Except.error e →
        parseJsonFromResponse s = Except.error ("Invalid JSON response: " ++ e)) := by
  constructor
  · intro t v hfix hparse
    unfold jsonParse at hparse
    cases hlist : t.toList with
    | nil =>
        rw [hlist, jsonParseChars_nil_error] at hparse
        cases hparse
    | cons c rest =>
        rw [hlist] at hparse hfix
        have hws := trim_fix_head hfix
        have hbt : c ≠ '`' := by
          intro hcc
          rw [hcc, jsonParseChars_backtick_error] at hparse
          cases hparse
        refine ⟨?_, ?_, ?_⟩
        · unfold parseJsonFromResponse
          rw [hlist, cleanResponse_plain hbt hfix, hparse]
        · unfold parseJsonFromResponse
          rw [show ("```json\n" ++ t ++ "\n```").toList
              = jsonFenceHeader ++ t.toList ++ fenceFooter
            from by simp [jsonFenceHeader, fenceFooter, String.toList]]
          rw [hlist, cleanResponse_json_fence hws hfix, hparse]
        · unfold parseJsonFromResponse
          rw [show ("```\n" ++ t ++ "\n```").toList
              = bareFenceHeader ++ t.toList ++ fenceFooter
            from by simp [bareFenceHeader, fenceFooter, String.toList]]
          rw [hlist, cleanResponse_bare_fence hws hfix, hparse]
  · intro s e h
    unfold parseJsonFromResponse
    rw [h]

/-- Closed instance of `parseJsonFromResponse_fenced`: a plain object, its two
fenced wrappings, and a malformed input yielding the error value. -/
theorem parseJsonFromResponse_fenced_witness :
    parseJsonFromResponse "\x7b\"a\": true\x7d" = Except.ok (Json.obj [("a", Json.bool true)]) ∧
    parseJsonFromResponse ("```json\n" ++ "\x7b\"a\": true\x7d" ++ "\n```")
      = Except.ok (Json.obj [("a", Json.bool true)]) ∧
    parseJsonFromResponse ("```\n" ++ "\x7b\"a\": true\x7d" ++ "\n```")
      = Except.ok (Json.obj [("a", Json.bool true)]) ∧
    parseJsonFromResponse "I am not JSON"
      = Except.error ("Invalid JSON response: " ++ "Unexpected token in JSON") := by
  have h := parseJsonFromResponse_fenced.1 "\x7b\"a\": true\x7d"
    (Json.obj [("a", Json.bool true)]) rfl rfl
  exact ⟨h.1, h.2.1, h.2.2,
    parseJsonFromResponse_fenced.2 "I am not JSON" "Unexpected token in JSON" rfl⟩

/-- C5 counterexample.  A fenced block with the language tag `js` is NOT
stripped correctly: only the three backticks are removed, the tag itself is
left in front of the payload ("js\n1"), so parsing fails while the plain text
parses — the fenced and unfenced results differ. -/
theorem parseJsonFromResponse_langTag_counterexample :
    cleanResponseChars "```js\n1\n```".toList = "js\n1".toList ∧
    exceptIsOk (parseJsonFromResponse "```js\n1\n```") = false ∧
    exceptIsOk (parseJsonFromResponse "1") = true ∧
    parseJsonFromResponse "```js\n1\n```" ≠ parseJsonFromResponse "1" := by
  refine ⟨rfl, rfl, rfl, fun h => ?_⟩
  have h2 := congrArg exceptIsOk h
  rw [show exceptIsOk (parseJsonFromResponse "```js\n1\n```") = false from rfl,
      show exceptIsOk (parseJsonFromResponse "1") = true from rfl] at h2
  exact Bool.false_ne_true h2
